import Mathlib

/-!
Verification of the conversion endpoint driver (`src/Chapter1/convertdrv.c`).

The driver keeps a context `drv_ctx` with a 5-byte text buffer and two
counters, accepts a short temperature token through its write handler,
converts Fahrenheit to Celsius or back, and hands the stored text back
through its read handler.

Modelling conventions:
* bytes are `Nat` values (`0` is the NUL byte, `70` is ASCII `F`,
  `67` is `C`, `10` is the line feed);
* the buffer is a `List Nat` of length `MAXBYTES`;
* `copy_from_user` / `copy_to_user` are the boundary-transfer collaborator
  and may fail for reasons outside the program, so each handler takes a
  `copyOk : Bool` telling whether the copy succeeds; `kzalloc` of the small
  staging buffer is modelled as succeeding;
* diagnostics (`pr_info`, `dev_info`) do not affect state; the converted
  temperature printed by the write handler is reported in the result so
  that theorems can talk about it.
-/

namespace ConvertDrv

/-- `MAXBYTES` from the source: 4 data characters plus the terminator. -/
def MAXBYTES : Nat := 5

/-- `struct drv_ctx`. The `dev` pointer only feeds diagnostics and is
omitted. Counters are the spec's unsigned counters. -/
structure drv_ctx where
  conversion_read_cnt : Nat
  conversion_write_cnt : Nat
  converted_temp : List Nat
  deriving DecidableEq, Repr

/-- C `strnlen s maxlen`: bytes before the first NUL, capped at `maxlen`. -/
def strnlen : List Nat → Nat → Nat
  | _, 0 => 0
  | [], _ + 1 => 0
  | b :: bs, n + 1 => if b = 0 then 0 else strnlen bs n + 1

/-- C `strlen` on the bytes of a list (stops at the first NUL; a list with
no NUL behaves as a string whose NUL sits at or past the end of the list). -/
def strlenL : List Nat → Nat
  | [] => 0
  | b :: bs => if b = 0 then 0 else strlenL bs + 1

/-- Kernel `strlcpy dest src size`: when `size > 0`, copy
`len = min (strlen src) (size - 1)` bytes of `src` into `dest` and put a
NUL at `dest[len]`; when `size = 0` nothing is written. At the driver's
call sites `size` never exceeds `src.length`, so capping `strlen` at
`src.length` (as `strlenL` does) agrees with the C computation
`min (strlen src) (size - 1)` even when the staged payload has no NUL. -/
def strlcpy (dest src : List Nat) (size : Nat) : List Nat :=
  if size = 0 then dest
  else
    (src.take (min (strlenL src) (size - 1)) ++
      dest.drop (min (strlenL src) (size - 1))).set (min (strlenL src) (size - 1)) 0

/-- `_parse_integer` from `lib/kstrtox.c` at base 10: consume leading
decimal digits, returning how many digits were consumed, the accumulated
value and the unconsumed rest. -/
def parse_integer : List Nat → Nat → Nat → Nat × Nat × List Nat
  | [], cnt, acc => (cnt, acc, [])
  | b :: bs, cnt, acc =>
    if 48 ≤ b ∧ b ≤ 57 then parse_integer bs (cnt + 1) (acc * 10 + (b - 48))
    else (cnt, acc, b :: bs)

/-- Digits, then at most one trailing line feed, and nothing else
(`_kstrtoull`: `if (*s == '\n') s++; if (*s) return -EINVAL;`). The
`KSTRTOX_OVERFLOW` branch is unreachable at the driver's call site — the
parsed string has at most 3 bytes, far below `long` overflow — and is
omitted. -/
def kstrtol_pre (s : List Nat) : Option Nat :=
  match parse_integer s 0 0 with
  | (0, _, _) => none
  | (_ + 1, acc, []) => some acc
  | (_ + 1, acc, [10]) => some acc
  | (_ + 1, _, _ :: _) => none

/-- Kernel `kstrtol` at base 10: an optional sign, then digits. Returns
`none` exactly when the C function returns a negative error code; the
driver only distinguishes success from failure. -/
def kstrtol (s : List Nat) : Option Int :=
  match s with
  | 45 :: rest => (kstrtol_pre rest).map (fun n => -(n : Int))
  | 43 :: rest => (kstrtol_pre rest).map (fun n => (n : Int))
  | _ => (kstrtol_pre s).map (fun n => (n : Int))

/-- The C string held in a buffer: its bytes before the first NUL. -/
def cString (buf : List Nat) : List Nat := buf.takeWhile (fun b => b != 0)

/-- Result of the write handler. `ok bytes diag` is the successful return
of `count` with `diag` the converted temperature that `pr_info` printed
(`none` when the unit byte was recognised as neither `F` nor `C`).
`tooLarge` is the `-ENOMEM` for an oversized count, `fault` the `-EFAULT`
from `copy_from_user`, `malformed` the error code handed on from
`kstrtol`. -/
inductive WriteResult where
  | ok (bytes : Nat) (diag : Option Int)
  | tooLarge
  | fault
  | malformed
  deriving DecidableEq, Repr

/-- Result of the read handler. `ok data bytes` delivers `data` to the
caller and returns `bytes`; `noData` is the `-EINVAL` for an empty buffer,
`fault` the `-EFAULT` from `copy_to_user`. -/
inductive ReadResult where
  | ok (data : List Nat) (bytes : Nat)
  | noData
  | fault
  deriving DecidableEq, Repr

/-- The driver buffer right after line 107,
`strlcpy(ctx->converted_temp, kbuf, (count > MAXBYTES ? MAXBYTES : count))`,
where `kbuf` holds the `count` user bytes. -/
def stagedBuf (st : drv_ctx) (payload : List Nat) : List Nat :=
  strlcpy st.converted_temp payload
    (if payload.length > MAXBYTES then MAXBYTES else payload.length)

/-- Line 109: the unit marker is read from `converted_temp[3]` before that
position is NUL-ed. -/
def unitByte (st : drv_ctx) (payload : List Nat) : Nat :=
  (stagedBuf st payload).getD 3 0

/-- Line 110: `ctx->converted_temp[3] = '\0'` truncates the stored text so
that it can be parsed as a number. -/
def truncBuf (st : drv_ctx) (payload : List Nat) : List Nat :=
  (stagedBuf st payload).set 3 0

/-- `write_miscdrv_rdwr` from the source. `payload` is the `count` user
bytes (`count = payload.length`); `copyOk` tells whether
`copy_from_user` succeeds. -/
def write_miscdrv_rdwr (st : drv_ctx) (payload : List Nat) (copyOk : Bool) :
    WriteResult × drv_ctx :=
  if payload.length > MAXBYTES then (.tooLarge, st)
  else if !copyOk then (.fault, st)
  else
    match kstrtol (cString (truncBuf st payload)) with
    | none => (.malformed, { st with converted_temp := truncBuf st payload })
    | some new_temp =>
      let diag : Option Int :=
        if unitByte st payload = 70 then some (Int.tdiv ((new_temp - 32) * 5) 9)
        else if unitByte st payload = 67 then some (Int.tdiv (new_temp * 9) 5 + 32)
        else none
      (.ok payload.length diag,
        { st with converted_temp := truncBuf st payload,
                  conversion_write_cnt := st.conversion_write_cnt + 1 })

/-- `read_miscdrv_rdwr` from the source. `count` is the caller's byte
count (the handler only logs it); `copyOk` tells whether `copy_to_user`
succeeds. -/
def read_miscdrv_rdwr (st : drv_ctx) (count : Nat) (copyOk : Bool) :
    ReadResult × drv_ctx :=
  if strnlen st.converted_temp MAXBYTES = 0 then (.noData, st)
  else if !copyOk then (.fault, st)
  else
    (.ok (st.converted_temp.take (strnlen st.converted_temp MAXBYTES))
        (strnlen st.converted_temp MAXBYTES),
      { st with conversion_read_cnt := st.conversion_read_cnt + 1 })

/-- The bytes of the sentinel string `"None"`. -/
def sentinel : List Nat := [78, 111, 110, 101]

/-- The context built by `convertdrv_init`: `devm_kzalloc` zeroes it, then
`strlcpy(ctx->converted_temp, "None", 5)` stores the sentinel. -/
def init_ctx : drv_ctx :=
  { conversion_read_cnt := 0
    conversion_write_cnt := 0
    converted_temp := strlcpy (List.replicate MAXBYTES 0) sentinel MAXBYTES }

/-- One caller-visible operation on the endpoint, with its boundary-copy
outcome. -/
inductive Op where
  | write (payload : List Nat) (copyOk : Bool)
  | read (count : Nat) (copyOk : Bool)

/-- The state after one operation. -/
def applyOp (st : drv_ctx) : Op → drv_ctx
  | .write p c => (write_miscdrv_rdwr st p c).2
  | .read n c => (read_miscdrv_rdwr st n c).2

/-- Whether the operation is a Write that returns success. -/
def opWriteOk (st : drv_ctx) : Op → Bool
  | .write p c =>
    match (write_miscdrv_rdwr st p c).1 with
    | .ok _ _ => true
    | _ => false
  | .read _ _ => false

/-- Whether the operation is a Read that returns success. -/
def opReadOk (st : drv_ctx) : Op → Bool
  | .read n c =>
    match (read_miscdrv_rdwr st n c).1 with
    | .ok _ _ => true
    | _ => false
  | .write _ _ => false

/-- Run a sequence of operations. -/
def run (st : drv_ctx) : List Op → drv_ctx
  | [] => st
  | op :: ops => run (applyOp st op) ops

/-- Number of successful Writes along a trace. -/
def succWrites (st : drv_ctx) : List Op → Nat
  | [] => 0
  | op :: ops => (if opWriteOk st op then 1 else 0) + succWrites (applyOp st op) ops

/-- Number of successful Reads along a trace. -/
def succReads (st : drv_ctx) : List Op → Nat
  | [] => 0
  | op :: ops => (if opReadOk st op then 1 else 0) + succReads (applyOp st op) ops

/-- A buffer that fits the 5-byte array and holds a NUL-terminated
string. -/
abbrev goodBuf (b : List Nat) : Prop :=
  b.length = MAXBYTES ∧ strnlen b MAXBYTES < MAXBYTES

example : init_ctx.converted_temp = [78, 111, 110, 101, 0] := by decide
example : Int.tdiv (-160) 9 = -17 := by decide
example : (write_miscdrv_rdwr init_ctx [49, 48, 48, 70, 10] true).1 =
    .ok 5 (some 37) := by decide
example : (write_miscdrv_rdwr init_ctx [49, 48, 48, 70] true).1 =
    .ok 4 none := by decide
example : (write_miscdrv_rdwr init_ctx [48, 67] true).1 = .ok 2 none := by decide
example : (write_miscdrv_rdwr init_ctx [97, 98, 99, 70] true).1 = .malformed := by decide
example : (write_miscdrv_rdwr init_ctx [48, 67, 0] true).1 = .malformed := by decide
example : (read_miscdrv_rdwr init_ctx 1 true).1 = .ok [78, 111, 110, 101] 4 := by decide

/-! Small facts about the byte-string helpers. -/

theorem strlenL_le_length (l : List Nat) : strlenL l ≤ l.length := by
  induction l with
  | nil => simp [strlenL]
  | cons b bs ih =>
    by_cases hb : b = 0 <;> simp [strlenL, hb] <;> omega

theorem getD_set_self (l : List Nat) (i a : Nat) (h : i < l.length) :
    (l.set i a).getD i 0 = a := by
  induction l generalizing i with
  | nil => simp at h
  | cons b bs ih =>
    cases i with
    | zero => rfl
    | succ j => simpa using ih j (by simpa using h)

theorem getD_set_ne (l : List Nat) (i j a : Nat) (h : i ≠ j) :
    (l.set i a).getD j 0 = l.getD j 0 := by
  induction l generalizing i j with
  | nil => simp
  | cons b bs ih =>
    cases i with
    | zero =>
      cases j with
      | zero => exact absurd rfl h
      | succ j' => rfl
    | succ i' =>
      cases j with
      | zero => rfl
      | succ j' => simpa using ih i' j' (by omega)

theorem getD_drop (l : List Nat) (n i : Nat) :
    (l.drop n).getD i 0 = l.getD (n + i) 0 := by
  induction n generalizing l with
  | zero => simp
  | succ m ih =>
    cases l with
    | nil => simp
    | cons b bs => simpa [Nat.succ_add] using ih bs

theorem strlcpy_length (dest src : List Nat) (size : Nat) (h : size ≤ dest.length) :
    (strlcpy dest src size).length = dest.length := by
  unfold strlcpy
  by_cases h0 : size = 0
  · simp [h0]
  · have h1 : min (strlenL src) (size - 1) ≤ src.length :=
      le_trans (min_le_left _ _) (strlenL_le_length src)
    have h2 : min (strlenL src) (size - 1) ≤ size - 1 := min_le_right _ _
    simp only [h0, if_false, List.length_set, List.length_append,
      List.length_take, List.length_drop]
    omega

theorem strlcpy_getD_high (dest src : List Nat) (size i : Nat) (h : size ≤ i) :
    (strlcpy dest src size).getD i 0 = dest.getD i 0 := by
  unfold strlcpy
  by_cases h0 : size = 0
  · simp [h0]
  · have h1 : min (strlenL src) (size - 1) ≤ src.length :=
      le_trans (min_le_left _ _) (strlenL_le_length src)
    have h2 : min (strlenL src) (size - 1) ≤ size - 1 := min_le_right _ _
    have hlen : (src.take (min (strlenL src) (size - 1))).length
        = min (strlenL src) (size - 1) := by
      simp [List.length_take]; omega
    have hne : min (strlenL src) (size - 1) ≠ i := by omega
    rw [if_neg h0, getD_set_ne _ _ _ _ hne,
      List.getD_append_right _ _ _ _ (by omega : (src.take _).length ≤ i),
      hlen, getD_drop]
    congr 1
    omega

/-! Shape lemmas for the write handler: one for each way it can return. -/

theorem write_too_large (st : drv_ctx) (p : List Nat) (copyOk : Bool)
    (h : p.length > MAXBYTES) :
    write_miscdrv_rdwr st p copyOk = (.tooLarge, st) := by
  unfold write_miscdrv_rdwr
  rw [if_pos h]

theorem write_fault (st : drv_ctx) (p : List Nat) (h : ¬ p.length > MAXBYTES) :
    write_miscdrv_rdwr st p false = (.fault, st) := by
  unfold write_miscdrv_rdwr
  rw [if_neg h]
  rfl

theorem write_malformed (st : drv_ctx) (p : List Nat)
    (hlen : ¬ p.length > MAXBYTES)
    (hparse : kstrtol (cString (truncBuf st p)) = none) :
    write_miscdrv_rdwr st p true =
      (.malformed, { st with converted_temp := truncBuf st p }) := by
  unfold write_miscdrv_rdwr
  rw [if_neg hlen]
  simp [hparse]

theorem write_parsed (st : drv_ctx) (p : List Nat) (v : Int)
    (hlen : ¬ p.length > MAXBYTES)
    (hparse : kstrtol (cString (truncBuf st p)) = some v) :
    write_miscdrv_rdwr st p true =
      (.ok p.length
        (if unitByte st p = 70 then some (Int.tdiv ((v - 32) * 5) 9)
         else if unitByte st p = 67 then some (Int.tdiv (v * 9) 5 + 32)
         else none),
       { st with converted_temp := truncBuf st p,
                 conversion_write_cnt := st.conversion_write_cnt + 1 }) := by
  unfold write_miscdrv_rdwr
  rw [if_neg hlen]
  simp [hparse]

/-! Claim C1. -/

/-- C1 counterexample: writing the spec's own example token "abcF" (bytes
`[97, 98, 99, 70]`) from the fresh context fails the parse with
MalformedNumber, and `write_count` stays 0 — the claimed increment does not
happen, because the handler returns the `kstrtol` error before the
`conversion_write_cnt += 1` line. -/
theorem C1_counterexample :
    (write_miscdrv_rdwr init_ctx [97, 98, 99, 70] true).1 = .malformed ∧
    (write_miscdrv_rdwr init_ctx [97, 98, 99, 70] true).2.conversion_write_cnt = 0 := by
  decide

/-- C1 (amended): a Write that passes the length check and the boundary
copy but whose numeric prefix fails base-10 signed parsing fails with
MalformedNumber, performs no conversion, leaves the stored buffer holding
the unparsed truncated value — and leaves `write_count` unchanged, since
the early error return skips the counter update. -/
theorem C1_malformed_no_count (st : drv_ctx) (p : List Nat)
    (hlen : p.length ≤ MAXBYTES)
    (hparse : kstrtol (cString (truncBuf st p)) = none) :
    write_miscdrv_rdwr st p true =
      (.malformed, { st with converted_temp := truncBuf st p }) ∧
    (write_miscdrv_rdwr st p true).2.conversion_write_cnt
      = st.conversion_write_cnt := by
  have h := write_malformed st p (by omega) hparse
  exact ⟨h, by rw [h]⟩

theorem C1_malformed_no_count_witness :
    write_miscdrv_rdwr init_ctx [97, 98, 97, 70] true =
      (.malformed, { init_ctx with converted_temp := truncBuf init_ctx [97, 98, 97, 70] }) ∧
    (write_miscdrv_rdwr init_ctx [97, 98, 97, 70] true).2.conversion_write_cnt
      = init_ctx.conversion_write_cnt :=
  C1_malformed_no_count init_ctx [97, 98, 97, 70] (by decide) (by decide)

/-! Claim C2. -/

/-- C2 counterexample: the spec's example Write("100F") submitted as its 4
bytes `[49, 48, 48, 70]`: the parse succeeds with value 100 and the token's
unit is `F`, yet the write returns with no conversion emitted instead of
the claimed 37 — the `strlcpy` keeps only 3 data bytes of a 4-byte write,
so the unit read at buffer position 3 is the NUL terminator, not `F`. -/
theorem C2_counterexample :
    kstrtol (cString (truncBuf init_ctx [49, 48, 48, 70])) = some 100 ∧
    (write_miscdrv_rdwr init_ctx [49, 48, 48, 70] true).1 = .ok 4 none := by
  decide

/-- C2 (amended): for every Write that passes the length check and the
boundary copy and whose numeric prefix parses to `v`, the conversion is
governed by the byte found at position 3 of the staged buffer: `F` there
emits `(v - 32) * 5 / 9` and `C` emits `(v * 9) / 5 + 32` (integer
division truncating toward zero), anything else emits no conversion. The
token "100F" therefore yields 37 only when submitted with a fifth byte
(newline or NUL) that pushes `F` to position 3; a bare 4-byte "100F" or a
2-byte "0C" yields no conversion. -/
theorem C2_conversion_formula (st : drv_ctx) (p : List Nat) (v : Int)
    (hlen : p.length ≤ MAXBYTES)
    (hparse : kstrtol (cString (truncBuf st p)) = some v) :
    (write_miscdrv_rdwr st p true).1 =
      .ok p.length
        (if unitByte st p = 70 then some (Int.tdiv ((v - 32) * 5) 9)
         else if unitByte st p = 67 then some (Int.tdiv (v * 9) 5 + 32)
         else none) := by
  rw [write_parsed st p v (by omega) hparse]

theorem C2_conversion_formula_witness :
    (write_miscdrv_rdwr init_ctx [49, 48, 48, 70, 10] true).1 = .ok 5 (some 37) := by
  rw [C2_conversion_formula init_ctx [49, 48, 48, 70, 10] 100 (by decide) (by decide)]
  decide

/-! Claim C3. -/

/-- C3: a Write whose count exceeds the buffer capacity of 5 fails with
InputTooLarge, and the context — buffer, `read_count` and `write_count` —
is returned untouched, whatever the boundary copy would have done. -/
theorem C3_too_large_rejected (st : drv_ctx) (p : List Nat) (copyOk : Bool)
    (h : p.length > MAXBYTES) :
    write_miscdrv_rdwr st p copyOk = (.tooLarge, st) :=
  write_too_large st p copyOk h

theorem C3_too_large_rejected_witness :
    write_miscdrv_rdwr init_ctx [49, 48, 48, 70, 10, 10] false = (.tooLarge, init_ctx) :=
  C3_too_large_rejected init_ctx [49, 48, 48, 70, 10, 10] false (by decide)

/-! Claim C4. -/

/-- C4: a Read before any Write, from the freshly initialised context,
succeeds whatever byte count the caller passes: it delivers exactly the
4-byte sentinel "None", returns 4, and leaves `read_count` equal to 1. -/
theorem C4_first_read (count : Nat) :
    read_miscdrv_rdwr init_ctx count true =
      (.ok sentinel 4, { init_ctx with conversion_read_cnt := 1 }) := rfl

/-! Claim C6. -/

/-- C6: a Write whose parse succeeds but whose unit byte is neither `F`
nor `C` performs no arithmetic conversion, leaves the buffer holding the
truncated numeric text, returns the byte count as success, and increments
`write_count` by 1. -/
theorem C6_unknown_unit (st : drv_ctx) (p : List Nat) (v : Int)
    (hlen : p.length ≤ MAXBYTES)
    (hparse : kstrtol (cString (truncBuf st p)) = some v)
    (hF : unitByte st p ≠ 70) (hC : unitByte st p ≠ 67) :
    write_miscdrv_rdwr st p true =
      (.ok p.length none,
       { st with converted_temp := truncBuf st p,
                 conversion_write_cnt := st.conversion_write_cnt + 1 }) := by
  rw [write_parsed st p v (by omega) hparse, if_neg hF, if_neg hC]

theorem C6_unknown_unit_witness :
    write_miscdrv_rdwr init_ctx [52, 50, 10, 88, 0] true =
      (.ok 5 none,
       { init_ctx with converted_temp := truncBuf init_ctx [52, 50, 10, 88, 0],
                       conversion_write_cnt := init_ctx.conversion_write_cnt + 1 }) :=
  C6_unknown_unit init_ctx [52, 50, 10, 88, 0] 42 (by decide) (by decide)
    (by decide) (by decide)

/-! Claim C8. -/

/-- C8: when the parse and the unit recognition both succeed, the computed
conversion is only emitted as a diagnostic: the stored buffer after the
Write is the truncated textual token (numeric prefix with position 3
NUL-ed), never the converted number. -/
theorem C8_diag_only (st : drv_ctx) (p : List Nat) (v : Int)
    (hlen : p.length ≤ MAXBYTES)
    (hparse : kstrtol (cString (truncBuf st p)) = some v)
    (hunit : unitByte st p = 70 ∨ unitByte st p = 67) :
    (write_miscdrv_rdwr st p true).2.converted_temp = truncBuf st p ∧
    (write_miscdrv_rdwr st p true).1 =
      .ok p.length
        (some (if unitByte st p = 70 then Int.tdiv ((v - 32) * 5) 9
               else Int.tdiv (v * 9) 5 + 32)) := by
  have h := write_parsed st p v (by omega) hparse
  refine ⟨by rw [h], ?_⟩
  rw [h]
  by_cases h70 : unitByte st p = 70
  · simp [h70]
  · have h67 : unitByte st p = 67 := hunit.resolve_left h70
    simp [h70, h67]

theorem C8_diag_only_witness :
    (write_miscdrv_rdwr init_ctx [49, 50, 51, 67, 10] true).2.converted_temp
      = [49, 50, 51, 0, 0] ∧
    (write_miscdrv_rdwr init_ctx [49, 50, 51, 67, 10] true).1 = .ok 5 (some 253) := by
  have h := C8_diag_only init_ctx [49, 50, 51, 67, 10] 123 (by decide) (by decide)
    (by decide)
  exact ⟨h.1.trans (by decide), h.2.trans (by decide)⟩

/-! Claim C9. -/

/-- C9: a Read from a context whose stored string is non-empty, with a
successful boundary copy, delivers and returns exactly
`strnlen converted_temp MAXBYTES` bytes, whatever max-length the caller
passed — the handler never consults `count`, so even a Read requesting
fewer bytes receives the full stored length. -/
theorem C9_read_ignores_count (st : drv_ctx) (count : Nat)
    (h : 0 < strnlen st.converted_temp MAXBYTES) :
    read_miscdrv_rdwr st count true =
      (.ok (st.converted_temp.take (strnlen st.converted_temp MAXBYTES))
          (strnlen st.converted_temp MAXBYTES),
       { st with conversion_read_cnt := st.conversion_read_cnt + 1 }) := by
  unfold read_miscdrv_rdwr
  rw [if_neg (by omega)]
  rfl

theorem C9_read_ignores_count_witness :
    read_miscdrv_rdwr init_ctx 1 true =
      (.ok (init_ctx.converted_temp.take (strnlen init_ctx.converted_temp MAXBYTES))
          (strnlen init_ctx.converted_temp MAXBYTES),
       { init_ctx with conversion_read_cnt := init_ctx.conversion_read_cnt + 1 }) :=
  C9_read_ignores_count init_ctx 1 (by decide)

/-! Claim C7. -/

theorem strnlen_le_of_zero (l : List Nat) (n i : Nat) (hi : i < n)
    (h : l.getD i 0 = 0) : strnlen l n ≤ i := by
  induction l generalizing n i with
  | nil =>
    cases n with
    | zero => exact absurd hi (Nat.not_lt_zero i)
    | succ m => simp [strnlen]
  | cons b bs ih =>
    cases n with
    | zero => exact absurd hi (Nat.not_lt_zero i)
    | succ m =>
      by_cases hb : b = 0
      · simp [strnlen, hb]
      · cases i with
        | zero => exact absurd (by simpa using h) hb
        | succ j =>
          have hj := ih m j (by omega) (by simpa using h)
          simp only [strnlen, if_neg hb]
          omega

/-- After the copy and the NUL-ing of position 3, the buffer keeps its
5-byte size and carries a NUL at position 3. -/
theorem truncBuf_shape (st : drv_ctx) (p : List Nat)
    (hlen : p.length ≤ MAXBYTES) (hbuf : st.converted_temp.length = MAXBYTES) :
    (truncBuf st p).length = MAXBYTES ∧ (truncBuf st p).getD 3 0 = 0 := by
  have hsize : (if p.length > MAXBYTES then MAXBYTES else p.length)
      ≤ st.converted_temp.length := by
    rw [hbuf]
    split <;> omega
  have hstage : (stagedBuf st p).length = MAXBYTES := by
    unfold stagedBuf
    rw [strlcpy_length _ _ _ hsize, hbuf]
  refine ⟨?_, ?_⟩
  · unfold truncBuf
    rw [List.length_set, hstage]
  · unfold truncBuf
    refine getD_set_self _ _ _ ?_
    rw [hstage]
    decide

/-- C7: the buffer never exceeds the 5-byte capacity and is a NUL-
terminated string after any Write: an oversized Write is rejected before
any mutation, a Write that fails the boundary copy leaves the buffer
untouched (so a well-formed buffer stays well-formed), and every Write
that gets past the copy leaves a NUL at position 3, so the stored string
has at most 3 data bytes. -/
theorem C7_buffer_invariant (st : drv_ctx) (p : List Nat) (copyOk : Bool)
    (hgood : goodBuf st.converted_temp) :
    goodBuf (write_miscdrv_rdwr st p copyOk).2.converted_temp ∧
    ((write_miscdrv_rdwr st p copyOk).1 ≠ .tooLarge →
      (write_miscdrv_rdwr st p copyOk).1 ≠ .fault →
      (write_miscdrv_rdwr st p copyOk).2.converted_temp.getD 3 0 = 0) ∧
    (p.length > MAXBYTES → (write_miscdrv_rdwr st p copyOk).2 = st) := by
  by_cases hlen : p.length > MAXBYTES
  · rw [write_too_large st p copyOk hlen]
    exact ⟨hgood, fun hne _ => absurd rfl hne, fun _ => rfl⟩
  · have hshape := truncBuf_shape st p (by omega) hgood.1
    have hterm : strnlen (truncBuf st p) MAXBYTES < MAXBYTES := by
      have h3 := strnlen_le_of_zero (truncBuf st p) MAXBYTES 3 (by decide) hshape.2
      have hM : MAXBYTES = 5 := rfl
      omega
    cases copyOk with
    | false =>
      rw [write_fault st p hlen]
      exact ⟨hgood, fun _ hne => absurd rfl hne, fun hc => absurd hc hlen⟩
    | true =>
      cases hk : kstrtol (cString (truncBuf st p)) with
      | none =>
        rw [write_malformed st p hlen hk]
        exact ⟨⟨hshape.1, hterm⟩, fun _ _ => hshape.2, fun hc => absurd hc hlen⟩
      | some v =>
        rw [write_parsed st p v hlen hk]
        exact ⟨⟨hshape.1, hterm⟩, fun _ _ => hshape.2, fun hc => absurd hc hlen⟩

theorem C7_buffer_invariant_witness :
    goodBuf (write_miscdrv_rdwr init_ctx [48, 70] true).2.converted_temp :=
  (C7_buffer_invariant init_ctx [48, 70] true (by decide)).1

/-! Claim C10. -/

/-- A 4-byte copy of a token with three leading non-NUL bytes stores only
those three bytes and NUL-terminates at position 3. -/
theorem strlcpy_getD3_of_4 (dest : List Nat) (a b c d : Nat)
    (hd : 4 ≤ dest.length) (h0 : a ≠ 0) (h1 : b ≠ 0) (h2 : c ≠ 0) :
    (strlcpy dest [a, b, c, d] 4).getD 3 0 = 0 := by
  have hstr : min (strlenL [a, b, c, d]) (4 - 1) = 3 := by
    have h3 : 3 ≤ strlenL [a, b, c, d] := by
      simp only [strlenL, if_neg h0, if_neg h1, if_neg h2]
      split <;> omega
    omega
  unfold strlcpy
  rw [if_neg (by decide : ¬(4 = 0)), hstr]
  refine getD_set_self _ _ _ ?_
  have hlen4 : ([a, b, c, d] : List Nat).length = 4 := rfl
  simp only [List.length_append, List.length_take, List.length_drop, hlen4]
  omega

/-- C10: the unit byte the write handler examines is never the final byte
of the submitted token. For a 4-byte write of a NUL-free token, `strlcpy`
stores only 3 data bytes plus a terminator, so the unit read at position 3
is the NUL byte; for a write shorter than 4 bytes the copy never touches
position 3, so the unit read is whatever was there before — from the
fresh context, the `e` (byte 101) of the sentinel "None" — and the
conversion branch depends on prior state, not on the payload. -/
theorem C10_stale_unit (st : drv_ctx) (p : List Nat) :
    (p.length = 4 → st.converted_temp.length = MAXBYTES →
      p.getD 0 0 ≠ 0 → p.getD 1 0 ≠ 0 → p.getD 2 0 ≠ 0 →
      unitByte st p = 0) ∧
    (p.length < 4 → unitByte st p = st.converted_temp.getD 3 0) ∧
    init_ctx.converted_temp.getD 3 0 = 101 := by
  refine ⟨?_, ?_, by decide⟩
  · intro h4 hbuf h0 h1 h2
    obtain ⟨a, b, c, d, rfl⟩ : ∃ a b c d, p = [a, b, c, d] := by
      match p, h4 with
      | [a, b, c, d], _ => exact ⟨a, b, c, d, rfl⟩
    unfold unitByte stagedBuf
    rw [if_neg (by simp [MAXBYTES])]
    exact strlcpy_getD3_of_4 st.converted_temp a b c d (by rw [hbuf]; decide)
      (by simpa using h0) (by simpa using h1) (by simpa using h2)
  · intro hlt
    unfold unitByte stagedBuf
    rw [if_neg (by simp only [MAXBYTES]; omega)]
    exact strlcpy_getD_high _ _ _ 3 (by omega)

theorem C10_stale_unit_witness :
    unitByte init_ctx [49, 48, 48, 70] = 0 ∧ unitByte init_ctx [48, 67] = 101 := by
  refine ⟨(C10_stale_unit init_ctx [49, 48, 48, 70]).1 (by decide) (by decide)
    (by decide) (by decide) (by decide), ?_⟩
  have h := (C10_stale_unit init_ctx [48, 67]).2.1 (by decide)
  rw [h]
  decide

/-! Claim C5. -/

theorem write_cnt_step (st : drv_ctx) (p : List Nat) (c : Bool) :
    (write_miscdrv_rdwr st p c).2.conversion_write_cnt
      = st.conversion_write_cnt + (if opWriteOk st (.write p c) then 1 else 0) ∧
    (write_miscdrv_rdwr st p c).2.conversion_read_cnt = st.conversion_read_cnt := by
  simp only [opWriteOk]
  by_cases hlen : p.length > MAXBYTES
  · simp [write_too_large st p c hlen]
  · cases c with
    | false => simp [write_fault st p hlen]
    | true =>
      cases hk : kstrtol (cString (truncBuf st p)) with
      | none => simp [write_malformed st p hlen hk]
      | some v => simp [write_parsed st p v hlen hk]

theorem read_cnt_step (st : drv_ctx) (n : Nat) (c : Bool) :
    (read_miscdrv_rdwr st n c).2.conversion_read_cnt
      = st.conversion_read_cnt + (if opReadOk st (.read n c) then 1 else 0) ∧
    (read_miscdrv_rdwr st n c).2.conversion_write_cnt = st.conversion_write_cnt := by
  simp only [opReadOk]
  unfold read_miscdrv_rdwr
  by_cases h0 : strnlen st.converted_temp MAXBYTES = 0
  · simp [h0]
  · cases c <;> simp [h0]

theorem applyOp_counts (st : drv_ctx) (op : Op) :
    (applyOp st op).conversion_write_cnt
      = st.conversion_write_cnt + (if opWriteOk st op then 1 else 0) ∧
    (applyOp st op).conversion_read_cnt
      = st.conversion_read_cnt + (if opReadOk st op then 1 else 0) := by
  cases op with
  | write p c =>
    have hw := write_cnt_step st p c
    have hro : opReadOk st (.write p c) = false := rfl
    rw [hro]
    exact ⟨hw.1, by simpa using hw.2⟩
  | read n c =>
    have hr := read_cnt_step st n c
    have hwo : opWriteOk st (.read n c) = false := rfl
    rw [hwo]
    exact ⟨by simpa using hr.2, hr.1⟩

theorem run_counts (ops : List Op) (st : drv_ctx) :
    (run st ops).conversion_write_cnt = st.conversion_write_cnt + succWrites st ops ∧
    (run st ops).conversion_read_cnt = st.conversion_read_cnt + succReads st ops := by
  induction ops generalizing st with
  | nil => simp [run, succWrites, succReads]
  | cons op ops ih =>
    have h := applyOp_counts st op
    have h2 := ih (applyOp st op)
    simp only [run, succWrites, succReads]
    constructor
    · rw [h2.1, h.1]
      omega
    · rw [h2.2, h.2]
      omega

/-- C5: starting from the fresh context and running any interleaved trace
of operations, the final `write_count` equals exactly the number of
successful Writes in the trace (whatever each conversion did) and the
final `read_count` equals exactly the number of successful Reads; and no
single operation ever decreases either counter. -/
theorem C5_counter_accounting (ops : List Op) :
    ((run init_ctx ops).conversion_write_cnt = succWrites init_ctx ops ∧
     (run init_ctx ops).conversion_read_cnt = succReads init_ctx ops) ∧
    ∀ st op, st.conversion_write_cnt ≤ (applyOp st op).conversion_write_cnt ∧
      st.conversion_read_cnt ≤ (applyOp st op).conversion_read_cnt := by
  refine ⟨⟨?_, ?_⟩, ?_⟩
  · rw [(run_counts ops init_ctx).1]
    simp [init_ctx]
  · rw [(run_counts ops init_ctx).2]
    simp [init_ctx]
  · intro st op
    have h := applyOp_counts st op
    exact ⟨h.1 ▸ Nat.le_add_right _ _, h.2 ▸ Nat.le_add_right _ _⟩

end ConvertDrv
